import Mathlib

/-!
Verification of md2audio's core components: the duration-fitting functions,
the resilient HTTP retry executor, the SQLite-backed voice cache, the caching
provider decorator, and the per-backend `Generate` entry points.

Modelling conventions:
* Go `float64` values are modelled as `ℚ`.  Every property proved here is
  about comparisons, clamping and exact small-denominator arithmetic, none of
  which depend on binary rounding.  The single caveat is division by zero
  (`ℚ` yields `0` where Go floats yield `±Inf`); no theorem below evaluates a
  modelled function at a duration of exactly `0` on a code path that divides
  by it.
* Strings are Lean `String`s; text scanning is done on `String.data`
  (`List Char`), which matches Go's byte-oriented processing on the ASCII
  inputs used in all concrete scenarios.
* Effects (HTTP attempts, subprocess runs, SQL) are made explicit: HTTP
  attempts are an oracle `Nat → AttemptOutcome`, the cache is a list of rows,
  and each modelled operation reports which side effects it performed.
-/

namespace Md2Audio

/-! ## Data model (internal/tts, src/unnamed/part_004) -/

/-- A TTS voice: `tts.Voice` with its five string fields. -/
structure Voice where
  ID : String
  Name : String
  Description : String
  Language : String
  Gender : String
deriving DecidableEq

/-- `tts.GenerateRequest`.  `Rate` is in words per minute, `TargetDuration`
in seconds. -/
structure GenerateRequest where
  Text : String
  Voice : String
  OutputPath : String
  Rate : Option ℤ
  ModelID : Option String
  Format : String
  TargetDuration : Option ℚ
deriving DecidableEq

/-! ## Word counting and WPM utilities (internal/utils, src/unnamed/part_001) -/

/-- Go `unicode.IsSpace` restricted to the Latin-1 range (all whitespace the
repository's inputs contain): tab, LF, VT, FF, CR, space, NEL, NBSP. -/
def goIsSpace (c : Char) : Bool :=
  c = ' ' || c = '\t' || c = '\n' || c.toNat = 11 || c.toNat = 12 ||
    c = '\r' || c.toNat = 133 || c.toNat = 160

/-- Counts maximal runs of non-whitespace characters, as
`len(strings.Fields(text))` does.  The boolean tracks whether the scanner is
inside a word. -/
def countFieldsAux : List Char → Bool → Nat
  | [], _ => 0
  | c :: cs, inWord =>
    if goIsSpace c then countFieldsAux cs false
    else (if inWord then 0 else 1) + countFieldsAux cs true

/-- `utils.CountWords`: whitespace-separated token count via `strings.Fields`. -/
def CountWords (text : String) : Nat :=
  countFieldsAux text.data false

/-- `utils.CalculateWPM`: words per minute for a word count and a duration in
seconds; `0` for non-positive durations. -/
def CalculateWPM (wordCount : Nat) (durationSeconds : ℚ) : ℚ :=
  if durationSeconds ≤ 0 then 0
  else (wordCount : ℚ) / (durationSeconds / 60)

/-- `utils.EstimateDuration`: seconds needed to speak `text` at a given WPM;
`0` for non-positive rates. -/
def EstimateDuration (text : String) (wordsPerMinute : ℚ) : ℚ :=
  if wordsPerMinute ≤ 0 then 0
  else ((CountWords text : ℚ) / wordsPerMinute) * 60

/-- `utils.ClampInt`. -/
def ClampInt (value min max : ℤ) : ℤ :=
  if value < min then min
  else if value > max then max
  else value

/-- `utils.ClampFloat64`. -/
def ClampFloat64 (value min max : ℚ) : ℚ :=
  if value < min then min
  else if value > max then max
  else value

/-- Go `int(x)` on a `float64`: truncation toward zero. -/
def goTruncToInt (q : ℚ) : ℤ :=
  if 0 ≤ q then ⌊q⌋ else ⌈q⌉

/-! ## Rate-controlled duration fitter (internal/audio/generator.go) -/

/-- Result of `estimateSpeakingRate`: the returned WPM and, when the
max-exceeded warning was logged, the unclamped required WPM it names. -/
structure RateResult where
  rate : ℤ
  warning : Option ℚ
deriving DecidableEq

/-- `audio.estimateSpeakingRate`: required WPM from word count and target
duration, `180` fallback when the required WPM is non-positive, `0.95`
adjustment, warning only when the adjusted value exceeds the maximum,
then clamp into `[90, 360]`. -/
def estimateSpeakingRate (textContent : String) (targetDuration : ℚ) : RateResult :=
  let minWPM : ℤ := 90
  let maxWPM : ℤ := 360
  let defaultWPM : ℤ := 180
  let adjustmentFactor : ℚ := 95 / 100
  let wordCount := CountWords textContent
  let requiredWPM := CalculateWPM wordCount targetDuration
  if requiredWPM ≤ 0 then ⟨defaultWPM, none⟩
  else
    let adjustedWPM := requiredWPM * adjustmentFactor
    let warn : Option ℚ := if adjustedWPM > (maxWPM : ℚ) then some requiredWPM else none
    ⟨ClampInt (goTruncToInt adjustedWPM) minWPM maxWPM, warn⟩

/-! ## Speed-controlled duration fitters
(internal/tts/elevenlabs/client.go `calculateSpeed` and the Google client's
`calculateSpeed` in src/unnamed/part_004; the two bodies are identical except
for the min/max speed constants) -/

/-- What a clamp warning printed by `calculateSpeed` claims about the audio
relative to the target: the parenthetical is either
"audio will be longer than target" or "audio will be shorter than target". -/
inductive RunClaim where
  | longer
  | shorter
deriving DecidableEq

/-- Result of `calculateSpeed`: the speed multiplier and, on clamp, the
unclamped speed together with the direction the warning text asserts. -/
structure SpeedResult where
  speed : ℚ
  warning : Option (ℚ × RunClaim)
deriving DecidableEq

/-- Common body of the two `calculateSpeed` functions: natural duration at
150 WPM, `speed = naturalDuration / targetDuration`, clamp into
`[minSpeed, maxSpeed]`; on clamp below the minimum the warning says the audio
will be longer than target, on clamp above the maximum that it will be
shorter (these are the literal messages in the source). -/
def calculateSpeedWith (minSpeed maxSpeed : ℚ) (text : String) (targetDuration : ℚ) :
    SpeedResult :=
  let defaultSpeed : ℚ := 1
  let naturalWPM : ℚ := 150
  let wordCount := CountWords text
  if wordCount = 0 then ⟨defaultSpeed, none⟩
  else
    let naturalDuration := EstimateDuration text naturalWPM
    let speed := naturalDuration / targetDuration
    let originalSpeed := speed
    let clamped := ClampFloat64 speed minSpeed maxSpeed
    let warn : Option (ℚ × RunClaim) :=
      if clamped ≠ originalSpeed then
        if originalSpeed < minSpeed then some (originalSpeed, RunClaim.longer)
        else some (originalSpeed, RunClaim.shorter)
      else none
    ⟨clamped, warn⟩

/-- ElevenLabs `calculateSpeed`: speed range `[0.7, 1.2]`. -/
def elevenlabsCalculateSpeed (text : String) (targetDuration : ℚ) : SpeedResult :=
  calculateSpeedWith (7/10) (12/10) text targetDuration

/-- Google `calculateSpeed`: speed range `[0.25, 4.0]`. -/
def googleCalculateSpeed (text : String) (targetDuration : ℚ) : SpeedResult :=
  calculateSpeedWith (1/4) 4 text targetDuration

/-! ## Resilient request executor (internal/tts/elevenlabs/client.go) -/

/-- Outcome of one raw HTTP attempt: a network-level error or a response
with status code and body. -/
inductive AttemptOutcome where
  | netErr (msg : String)
  | response (status : Nat) (body : String)
deriving DecidableEq

/-- Errors surfaced by `retryableHTTPRequest`. -/
inductive ReqError where
  | network (msg : String)
  | apiStatus (status : Nat) (body : String)
  | ctxCanceled
deriving DecidableEq

/-- `elevenlabs.shouldRetry`: retryable HTTP status codes. -/
def shouldRetry (statusCode : Nat) : Bool :=
  statusCode == 429 || statusCode == 500 || statusCode == 502 || statusCode == 503

/-- The `operation` closure inside `retryableHTTPRequest`: a network error or
a retryable status produce an error (the latter capturing status and body);
any other response is handed back as-is, 2xx or not. -/
def runOperation (a : AttemptOutcome) : Except ReqError (Nat × String) :=
  match a with
  | .netErr m => .error (.network m)
  | .response s b => if shouldRetry s then .error (.apiStatus s b) else .ok (s, b)

/-- Trace of one `retryableHTTPRequest` run: final outcome, number of HTTP
attempts actually performed, number of backoff waits slept. -/
structure RetryTrace where
  result : Except ReqError (Nat × String)
  attempts : Nat
  waits : Nat

/-- The retry loop of `retryableHTTPRequest`.  `att n` is the outcome of the
`n`-th HTTP attempt and `canceled n` whether the caller's context is done at
the cancellation check after attempt `n`.  `remaining` counts how many of the
`maxRetries` attempts are still allowed (the Go loop runs while
`retryCount < maxRetries`, returning `lastErr` as soon as
`retryCount ≥ maxRetries`).  The backoff's `NextBackOff` never yields `Stop`
within three attempts, so that exit is not modelled. -/
def retryAux (att : Nat → AttemptOutcome) (canceled : Nat → Bool) :
    Nat → Nat → Nat → Nat → RetryTrace
  | _, 0, attempts, waits => ⟨.error .ctxCanceled, attempts, waits⟩
  | idx, remaining + 1, attempts, waits =>
    match runOperation (att idx) with
    | .ok r => ⟨.ok r, attempts + 1, waits⟩
    | .error e =>
      if remaining = 0 then ⟨.error e, attempts + 1, waits⟩
      else if canceled idx then ⟨.error .ctxCanceled, attempts + 1, waits⟩
      else retryAux att canceled (idx + 1) remaining (attempts + 1) (waits + 1)

/-- `elevenlabs.Client.retryableHTTPRequest` with `maxRetries = 3`. -/
def retryableHTTPRequest (att : Nat → AttemptOutcome) (canceled : Nat → Bool) :
    RetryTrace :=
  retryAux att canceled 0 3 0 0

/-- Errors surfaced by `Client.Generate` / `Client.ListVoices` around the
executor. -/
inductive GenError where
  | execFailed (e : ReqError)
  | apiStatus (status : Nat) (body : String)
deriving DecidableEq

/-- The HTTP portion shared by `Client.Generate` and `Client.ListVoices`:
run the executor, wrap an executor error, and turn any non-200 response into
an error preserving its status code and body. -/
def generateHTTPResult (att : Nat → AttemptOutcome) (canceled : Nat → Bool) :
    Except GenError String :=
  match (retryableHTTPRequest att canceled).result with
  | .error e => .error (.execFailed e)
  | .ok (status, body) =>
    if status ≠ 200 then .error (.apiStatus status body) else .ok body

/-! ## Voice cache (src/unnamed/part_011, `voices` table) -/

/-- One row of the SQLite `voices` table. -/
structure Row where
  provider : String
  voiceId : String
  name : String
  description : String
  language : String
  gender : String
  cachedAt : ℤ
deriving DecidableEq

/-- The bulk-insert of `VoiceCache.Set`: one row per voice with a single
`cached_at` timestamp. -/
def toRow (p : String) (now : ℤ) (v : Voice) : Row :=
  ⟨p, v.ID, v.Name, v.Description, v.Language, v.Gender, now⟩

/-- The column list `SELECT voice_id, name, description, language, gender`
scanned back into a `tts.Voice` by `VoiceCache.Get`. -/
def rowToVoice (r : Row) : Voice :=
  ⟨r.voiceId, r.name, r.description, r.language, r.gender⟩

/-- The cache database state: the rows of the `voices` table. -/
abbrev CacheState := List Row

/-- Byte-wise lexicographic comparison of character lists, the BINARY
collation SQLite applies to `ORDER BY name` (code-point order coincides with
UTF-8 byte order). -/
def lexLe : List Char → List Char → Bool
  | [], _ => true
  | _ :: _, [] => false
  | a :: as, b :: bs =>
    if a.toNat < b.toNat then true
    else if b.toNat < a.toNat then false
    else lexLe as bs

/-- String comparison under SQLite's BINARY collation. -/
def strLe (a b : String) : Bool :=
  lexLe a.data b.data

/-- Row comparison for `ORDER BY name`. -/
def rowNameLe (a b : Row) : Bool :=
  strLe a.name b.name

/-- Ordered insertion for `ORDER BY name`. -/
def insertByName (r : Row) : List Row → List Row
  | [] => [r]
  | w :: ws => if rowNameLe r w then r :: w :: ws else w :: insertByName r ws

/-- The `ORDER BY name` clause of `VoiceCache.Get`: sort rows by `name`. -/
def sortByName : List Row → List Row
  | [] => []
  | r :: rs => insertByName r (sortByName rs)

/-- The row filter of `VoiceCache.Get`:
`WHERE provider = ? AND cached_at > ?` with `? = now - ttl`. -/
def getRowPred (p : String) (cutoff : ℤ) (r : Row) : Bool :=
  r.provider == p && decide (cutoff < r.cachedAt)

/-- `VoiceCache.Get`: rows for `provider` with `cached_at` newer than
`now - ttl`, ordered by name, scanned back into voices.  An empty result is
the cache-miss signal. -/
def GetVoices (s : CacheState) (p : String) (now ttl : ℤ) : List Voice :=
  let cutoff := now - ttl
  (sortByName (s.filter (getRowPred p cutoff))).map rowToVoice

/-- `VoiceCache.Set`: transactional replace — delete all rows for `provider`,
bulk-insert the new set with one timestamp.  A duplicate `(provider,
voice_id)` inside the new set violates the table's primary key, the
transaction rolls back, and the state is unchanged (the error is returned;
the caller never sees a partial state). -/
def SetVoices (s : CacheState) (p : String) (voices : List Voice) (now : ℤ) :
    Except String CacheState :=
  if (voices.map Voice.ID).Nodup then
    .ok (s.filter (fun r => !(r.provider == p)) ++ voices.map (toRow p now))
  else .error "failed to insert voice: UNIQUE constraint failed"

/-- `VoiceCache.Clear`: delete all rows for one provider. -/
def ClearVoices (s : CacheState) (p : String) : CacheState :=
  s.filter (fun r => !(r.provider == p))

/-! ## Cached provider decorator (internal/cache/cached_provider.go) -/

/-- `CachedProvider.ListVoices` with its three collaborator outcomes made
explicit: the cache `Get` result, the wrapped provider's `ListVoices` result,
and the cache `Set` result.  A failed `Get` is returned at once as
`cache error: …` — the provider is not consulted, so its outcome cannot
influence the result.  A failed `Set` is only logged: the fetched voices are
returned regardless of `cacheSet`. -/
def cachedListVoices (cacheGet : Except String (List Voice))
    (providerVoices : Except String (List Voice))
    (cacheSet : Except String Unit) : Except String (List Voice) :=
  match cacheGet with
  | .error e => .error ("cache error: " ++ e)
  | .ok cached =>
    if cached.length > 0 then .ok cached
    else
      match providerVoices, cacheSet with
      | .error e, _ => .error e
      | .ok voices, _ => .ok voices

/-- `CachedProvider.ListVoicesRefresh`: clear, fetch, set; every step's
failure is propagated. -/
def cachedListVoicesRefresh (cacheClear : Except String Unit)
    (providerVoices : Except String (List Voice))
    (cacheSet : Except String Unit) : Except String (List Voice) :=
  match cacheClear with
  | .error e => .error ("failed to clear cache: " ++ e)
  | .ok _ =>
    match providerVoices with
    | .error e => .error e
    | .ok voices =>
      match cacheSet with
      | .error e => .error ("failed to cache voices: " ++ e)
      | .ok _ => .ok voices

/-! ## Markdown normalization (internal/text/text.go) -/

/-- The Go regexp class `\s`, i.e. `[\t\n\f\r ]`, used by
`whitespacePattern`. -/
def reIsSpace (c : Char) : Bool :=
  c = '\t' || c = '\n' || c.toNat = 12 || c = '\r' || c = ' '

/-- `ReplaceAllString` of a `X+` run pattern with a single character: every
maximal run of characters matching `p` becomes one `repl`.  The boolean
tracks whether the scanner is inside a run. -/
def collapseRunsAux (p : Char → Bool) (repl : Char) : List Char → Bool → List Char
  | [], _ => []
  | c :: cs, inRun =>
    if p c then
      (if inRun then [] else [repl]) ++ collapseRunsAux p repl cs true
    else c :: collapseRunsAux p repl cs false

/-- Characters strictly before the first occurrence of `stop`, together with
the remainder after it; `none` when `stop` does not occur.  This is exactly
what a greedy `[^stop]+` followed by `stop` consumes. -/
def splitAtChar (stop : Char) : List Char → Option (List Char × List Char)
  | [] => none
  | c :: cs =>
    if c = stop then some ([], cs)
    else
      match splitAtChar stop cs with
      | none => none
      | some (seg, rest) => some (c :: seg, rest)

/-- A match of `markdownLinkPattern` `\[([^\]]+)\]\([^\)]+\)` anchored at the
head of the list: returns the link label (the `$1` replacement) and the
remainder after the match. -/
def tryLinkAt : List Char → Option (List Char × List Char)
  | '[' :: cs =>
    match splitAtChar ']' cs with
    | some (label, rest1) =>
      if label = [] then none
      else
        match rest1 with
        | '(' :: rest2 =>
          match splitAtChar ')' rest2 with
          | some (url, rest3) => if url = [] then none else some (label, rest3)
          | none => none
        | _ => none
    | none => none
  | _ => none

/-- `markdownLinkPattern.ReplaceAllString(text, "$1")`, scanning left to
right and replacing non-overlapping matches.  The fuel bounds the number of
scanner steps; each step consumes at least one input character, so an
initial fuel of the input length always suffices. -/
def removeLinksAux : Nat → List Char → List Char
  | 0, l => l
  | _ + 1, [] => []
  | fuel + 1, c :: cs =>
    match tryLinkAt (c :: cs) with
    | some (label, rest) => label ++ removeLinksAux fuel rest
    | none => c :: removeLinksAux fuel cs

/-- An emphasis marker, the class `[*_]` of `boldItalicPattern`. -/
def isMarker (c : Char) : Bool :=
  c = '*' || c = '_'

/-- Greedy `[^*_]+` run: the maximal marker-free segment and the remainder. -/
def takeNonMarkers : List Char → List Char × List Char
  | [] => ([], [])
  | c :: cs =>
    if isMarker c then ([], c :: cs)
    else
      let (run, rest) := takeNonMarkers cs
      (c :: run, rest)

/-- The greedy closing `[*_]{1,2}`: consumes two markers when two are
available, otherwise one; `none` when the head is not a marker. -/
def matchCloser : List Char → Option (List Char)
  | [] => none
  | [c1] => if isMarker c1 then some [] else none
  | c1 :: c2 :: rest =>
    if isMarker c1 then
      if isMarker c2 then some rest else some (c2 :: rest)
    else none

/-- A match of `boldItalicPattern` `[*_]{1,2}([^*_]+)[*_]{1,2}` anchored at
the head: the opener takes two markers when the second character is also a
marker (the one-marker backtrack can never succeed then, because the body
class excludes markers), the body is the greedy marker-free run, the closer
is `matchCloser`.  Returns the `$1` group and the remainder. -/
def tryEmphasisAt : List Char → Option (List Char × List Char)
  | [] => none
  | m1 :: rest =>
    if isMarker m1 then
      let afterOpener :=
        match rest with
        | m2 :: rest2 => if isMarker m2 then rest2 else rest
        | [] => rest
      let (run, rest3) := takeNonMarkers afterOpener
      if run = [] then none
      else
        match matchCloser rest3 with
        | some rest4 => some (run, rest4)
        | none => none
    else none

/-- `boldItalicPattern.ReplaceAllString(text, "$1")` (fuelled like
`removeLinksAux`). -/
def removeEmphasisAux : Nat → List Char → List Char
  | 0, l => l
  | _ + 1, [] => []
  | fuel + 1, c :: cs =>
    match tryEmphasisAt (c :: cs) with
    | some (run, rest) => run ++ removeEmphasisAux fuel rest
    | none => c :: removeEmphasisAux fuel cs

/-- The backtick character of `codeBlockPattern`. -/
def btick : Char := Char.ofNat 96

/-- `codeBlockPattern.ReplaceAllString(text, "")`: each backtick-delimited
non-empty code span is deleted (fuelled like `removeLinksAux`). -/
def removeCodeAux : Nat → List Char → List Char
  | 0, l => l
  | _ + 1, [] => []
  | fuel + 1, c :: cs =>
    if c = btick then
      match splitAtChar btick cs with
      | some (seg, rest) =>
        if seg = [] then c :: removeCodeAux fuel cs
        else removeCodeAux fuel rest
      | none => c :: removeCodeAux fuel cs
    else c :: removeCodeAux fuel cs

/-- Drop leading Unicode whitespace. -/
def dropLeadingSpace : List Char → List Char
  | [] => []
  | c :: cs => if goIsSpace c then dropLeadingSpace cs else c :: cs

/-- Go `strings.TrimSpace`. -/
def TrimSpace (s : String) : String :=
  ⟨((dropLeadingSpace ((dropLeadingSpace s.data).reverse)).reverse)⟩

/-- `text.CleanMarkdown`: collapse newline runs to a space, collapse `\s+`
runs to a space, strip markdown links to their label, strip bold/italic
markers, delete code spans, trim. -/
def CleanMarkdown (s : String) : String :=
  let l1 := collapseRunsAux (fun c => c = '\n') ' ' s.data false
  let l2 := collapseRunsAux reIsSpace ' ' l1 false
  let l3 := removeLinksAux l2.length l2
  let l4 := removeEmphasisAux l3.length l3
  let l5 := removeCodeAux l4.length l4
  ⟨(dropLeadingSpace ((dropLeadingSpace l5.reverse).reverse))⟩

/-! ## Output-path extension handling (filepath.Ext slicing used by the
providers) -/

/-- Splits off `filepath.Ext`: walks the reversed path; the extension starts
at the last dot of the final path element, and is empty when that element has
no dot.  The accumulator collects the suffix already walked, in forward
order. -/
def extSplitAux : List Char → List Char → Option (List Char × List Char)
  | [], _ => none
  | c :: cs, acc =>
    if c = '.' then some (cs.reverse, '.' :: acc)
    else if c = '/' then none
    else extSplitAux cs (c :: acc)

/-- A path as `(everything before the extension, the extension)`. -/
def splitExt (p : String) : String × String :=
  match extSplitAux p.data.reverse [] with
  | some (base, ext) => (⟨base⟩, ⟨ext⟩)
  | none => (p, "")

/-- The pattern `if filepath.Ext(path) != want { path = path[:len(path)-len(ext)] + want }`
each provider uses to force its output container's extension. -/
def fixExt (p : String) (want : String) : String :=
  let (base, ext) := splitExt p
  if ext = want then p else base ++ want

/-! ## Provider `Generate` front ends -/

/-- Result of a local-command provider's `Generate`: the outcome, and
whether the synthesis subprocess was actually invoked (the only step that
creates an audio file). -/
structure LocalGenResult where
  result : Except String String
  synthesisRan : Bool

/-- `say.Provider.Generate` up to the synthesis command: clean the markdown,
fail with `no text to generate audio from` when nothing remains, otherwise
force the `.aiff` extension and invoke `say` (`cmdSucceeds` abstracts the
subprocess exit status).  Rate selection, duration measurement and the
optional M4A conversion happen after synthesis and are not modelled. -/
def sayGenerate (cmdSucceeds : Bool) (req : GenerateRequest) : LocalGenResult :=
  let cleanText := CleanMarkdown req.Text
  if (TrimSpace cleanText).data = [] then
    ⟨.error "no text to generate audio from", false⟩
  else
    let outputPath := fixExt req.OutputPath ".aiff"
    if cmdSucceeds then ⟨.ok outputPath, true⟩
    else ⟨.error "say command failed", true⟩

/-- `espeak.Provider.Generate` up to the synthesis command: identical
empty-text guard, `.wav` extension, `espeak-ng` invocation.  Voice mapping,
duration measurement and format conversion are post-synthesis and not
modelled. -/
def espeakGenerate (cmdSucceeds : Bool) (req : GenerateRequest) : LocalGenResult :=
  let cleanText := CleanMarkdown req.Text
  if (TrimSpace cleanText).data = [] then
    ⟨.error "no text to generate audio from", false⟩
  else
    let outputPath := fixExt req.OutputPath ".wav"
    if cmdSucceeds then ⟨.ok outputPath, true⟩
    else ⟨.error "espeak command failed", true⟩

/-- Result of a remote provider's `Generate`: the outcome, whether the output
file was written, and whether a synthesis request was sent to the remote
API. -/
structure RemoteGenResult where
  result : Except GenError String
  fileWritten : Bool
  requestSent : Bool

/-- `elevenlabs.Client.Generate`: builds the request body from `req.Text`
with no empty-text check, executes it through the retry executor, and on a
200 response writes the audio to the `.mp3`-fixed output path.  Voice
settings (including the speed computed from `TargetDuration`) only affect the
request payload, not the control flow modelled here. -/
def elevenlabsGenerate (att : Nat → AttemptOutcome) (canceled : Nat → Bool)
    (req : GenerateRequest) : RemoteGenResult :=
  match generateHTTPResult att canceled with
  | .error e => ⟨.error e, false, true⟩
  | .ok _ => ⟨.ok (fixExt req.OutputPath ".mp3"), true, true⟩

/-- Result of the Google provider's `Generate`, whose errors are plain
wrapped strings rather than the ElevenLabs executor's error type. -/
structure GoogleGenResult where
  result : Except String String
  fileWritten : Bool
  requestSent : Bool

/-- `google.Client.Generate`: builds the synthesis request from `req.Text`
with no empty-text check (`apiOutcome` abstracts the gRPC call), and on
success writes the audio to the format-fixed output path. -/
def googleGenerate (apiOutcome : Except String String) (req : GenerateRequest) :
    GoogleGenResult :=
  match apiOutcome with
  | .error e => ⟨.error ("failed to synthesize speech: " ++ e), false, true⟩
  | .ok _ => ⟨.ok (fixExt req.OutputPath ("." ++ req.Format)), true, true⟩

/-! ## Helper lemmas -/

theorem clampInt_bounds (v lo hi : ℤ) (h : lo ≤ hi) :
    lo ≤ ClampInt v lo hi ∧ ClampInt v lo hi ≤ hi := by
  unfold ClampInt
  split_ifs with h1 h2 <;> omega

theorem clampFloat_bounds (v lo hi : ℚ) (h : lo ≤ hi) :
    lo ≤ ClampFloat64 v lo hi ∧ ClampFloat64 v lo hi ≤ hi := by
  unfold ClampFloat64
  split_ifs with h1 h2
  · exact ⟨le_refl lo, h⟩
  · exact ⟨h, le_refl hi⟩
  · exact ⟨le_of_not_lt h1, le_of_not_lt h2⟩

theorem speedWith_bounds (lo hi : ℚ) (t : String) (d : ℚ)
    (hlo : lo ≤ 1) (hhi : 1 ≤ hi) :
    lo ≤ (calculateSpeedWith lo hi t d).speed ∧ (calculateSpeedWith lo hi t d).speed ≤ hi := by
  unfold calculateSpeedWith
  by_cases hw : CountWords t = 0
  · simp only [hw, if_pos rfl]
    exact ⟨hlo, hhi⟩
  · simp only [if_neg hw]
    exact clampFloat_bounds _ lo hi (le_trans hlo hhi)

/-! ## Claims about the duration fitters -/

/-- C2: for every text and every strictly positive target duration, the
fitters stay inside their backend's control range: `estimateSpeakingRate`
lands in `[90, 360]` WPM, the ElevenLabs speed in `[0.7, 1.2]`, the Google
speed in `[0.25, 4.0]`, the zero-word default values included. -/
theorem duration_fitter_output_in_range (textContent : String) (d : ℚ) (_hd : 0 < d) :
    (90 ≤ (estimateSpeakingRate textContent d).rate ∧
      (estimateSpeakingRate textContent d).rate ≤ 360) ∧
    (7/10 ≤ (elevenlabsCalculateSpeed textContent d).speed ∧
      (elevenlabsCalculateSpeed textContent d).speed ≤ 12/10) ∧
    (1/4 ≤ (googleCalculateSpeed textContent d).speed ∧
      (googleCalculateSpeed textContent d).speed ≤ 4) := by
  refine ⟨?_, ?_, ?_⟩
  · unfold estimateSpeakingRate
    by_cases h : CalculateWPM (CountWords textContent) d ≤ 0
    · simp only [if_pos h]
      exact ⟨by norm_num, by norm_num⟩
    · simp only [if_neg h]
      exact clampInt_bounds _ 90 360 (by norm_num)
  · exact speedWith_bounds (7/10) (12/10) textContent d (by norm_num) (by norm_num)
  · exact speedWith_bounds (1/4) 4 textContent d (by norm_num) (by norm_num)

/-- C2 witness: the range theorem applied at a concrete text and duration. -/
theorem duration_fitter_output_in_range_witness :
    (90 ≤ (estimateSpeakingRate "hello world" 10).rate ∧
      (estimateSpeakingRate "hello world" 10).rate ≤ 360) ∧
    (7/10 ≤ (elevenlabsCalculateSpeed "hello world" 10).speed ∧
      (elevenlabsCalculateSpeed "hello world" 10).speed ≤ 12/10) ∧
    (1/4 ≤ (googleCalculateSpeed "hello world" 10).speed ∧
      (googleCalculateSpeed "hello world" 10).speed ≤ 4) :=
  duration_fitter_output_in_range "hello world" 10 (by decide)

/-- C3 counterexample: with a two-word text and target duration `-60`, the
speed-controlled fitters do not return the default speed `1.0` — the
computed speed is negative and is clamped to the backend minimum. -/
theorem speed_fitter_fallback_cex :
    (elevenlabsCalculateSpeed "hello world" (-60)).speed = 7/10 ∧
    (googleCalculateSpeed "hello world" (-60)).speed = 1/4 ∧
    (7/10 : ℚ) ≠ 1 ∧ (1/4 : ℚ) ≠ 1 := by
  have hw : CountWords "hello world" = 2 := rfl
  refine ⟨?_, ?_, by norm_num, by norm_num⟩
  · simp only [elevenlabsCalculateSpeed, calculateSpeedWith, EstimateDuration, hw]
    norm_num [ClampFloat64]
  · simp only [googleCalculateSpeed, calculateSpeedWith, EstimateDuration, hw]
    norm_num [ClampFloat64]

/-- C3 amended: a non-positive target duration yields the default only for
the rate-controlled fitter (`180` WPM, text-independent) and for
`CalculateWPM` (which returns `0`); the speed-controlled fitters return their
default `1.0` exactly when the text has zero words, and for non-empty text
with a negative target they return the clamped minimum speed instead. -/
theorem duration_fitter_fallback_amended :
    (∀ (t : String) (d : ℚ), d ≤ 0 → estimateSpeakingRate t d = ⟨180, none⟩) ∧
    (∀ (wc : ℕ) (d : ℚ), d ≤ 0 → CalculateWPM wc d = 0) ∧
    (∀ (t : String) (d : ℚ), CountWords t = 0 →
        elevenlabsCalculateSpeed t d = ⟨1, none⟩ ∧ googleCalculateSpeed t d = ⟨1, none⟩) ∧
    (∀ (t : String) (d : ℚ), d < 0 → 0 < CountWords t →
        (elevenlabsCalculateSpeed t d).speed = 7/10 ∧
        (googleCalculateSpeed t d).speed = 1/4) := by
  have hwpm : ∀ (wc : ℕ) (d : ℚ), d ≤ 0 → CalculateWPM wc d = 0 := by
    intro wc d hd
    simp [CalculateWPM, hd]
  have hneg : ∀ (lo hi : ℚ) (t : String) (d : ℚ), 0 < lo → d < 0 → 0 < CountWords t →
      (calculateSpeedWith lo hi t d).speed = lo := by
    intro lo hi t d hlo hd hw
    have hw0 : CountWords t ≠ 0 := Nat.pos_iff_ne_zero.mp hw
    have hnat : (0 : ℚ) < EstimateDuration t 150 := by
      unfold EstimateDuration
      rw [if_neg (by norm_num)]
      have : (0 : ℚ) < (CountWords t : ℚ) := by exact_mod_cast hw
      positivity
    have hspeed : EstimateDuration t 150 / d < 0 := div_neg_of_pos_of_neg hnat hd
    unfold calculateSpeedWith
    simp only [if_neg hw0]
    unfold ClampFloat64
    rw [if_pos (lt_trans hspeed hlo)]
  refine ⟨?_, hwpm, ?_, ?_⟩
  · intro t d hd
    have h0 : CalculateWPM (CountWords t) d = 0 := hwpm _ d hd
    simp [estimateSpeakingRate, h0]
  · intro t d hw
    constructor <;> simp [elevenlabsCalculateSpeed, googleCalculateSpeed, calculateSpeedWith, hw]
  · intro t d hd hw
    exact ⟨hneg (7/10) (12/10) t d (by norm_num) hd hw, hneg (1/4) 4 t d (by norm_num) hd hw⟩

/-- C3 amended witness: the amended fallback facts at concrete inputs. -/
theorem duration_fitter_fallback_amended_witness :
    estimateSpeakingRate "Some text" (-5) = ⟨180, none⟩ ∧
    CalculateWPM 100 (-10) = 0 ∧
    (elevenlabsCalculateSpeed "" 30 = ⟨1, none⟩ ∧ googleCalculateSpeed "" 30 = ⟨1, none⟩) ∧
    ((elevenlabsCalculateSpeed "lorem ipsum" (-60)).speed = 7/10 ∧
      (googleCalculateSpeed "lorem ipsum" (-60)).speed = 1/4) :=
  ⟨duration_fitter_fallback_amended.1 "Some text" (-5) (by decide),
   duration_fitter_fallback_amended.2.1 100 (-10) (by decide),
   duration_fitter_fallback_amended.2.2.1 "" 30 rfl,
   duration_fitter_fallback_amended.2.2.2 "lorem ipsum" (-60) (by decide) (by decide)⟩

/-- C5: the clamp warnings of the speed-controlled fitters assert the
opposite direction from the spec (and from the speed semantics documented in
the same function): with a ten-word text (natural duration 4s) and target 1s
the speed 4.0 is clamped down to the maximum 1.2 and the warning claims the
audio will be *shorter* than target, although at speed 1.2 the audio lasts
10/3 s > 1 s; symmetrically, with target 100s the speed 0.04 is clamped up
to the minimum 0.7 and the warning claims the audio will be *longer* than
target, although at speed 0.7 it lasts 40/7 s < 100 s.  The Google variant
warns the same way. -/
theorem speed_clamp_warning_direction_bug :
    (elevenlabsCalculateSpeed "w1 w2 w3 w4 w5 w6 w7 w8 w9 w10" 1).speed = 12/10 ∧
    (elevenlabsCalculateSpeed "w1 w2 w3 w4 w5 w6 w7 w8 w9 w10" 1).warning =
      some (4, .shorter) ∧
    EstimateDuration "w1 w2 w3 w4 w5 w6 w7 w8 w9 w10" 150 / (12/10) > 1 ∧
    (elevenlabsCalculateSpeed "w1 w2 w3 w4 w5 w6 w7 w8 w9 w10" 100).speed = 7/10 ∧
    (elevenlabsCalculateSpeed "w1 w2 w3 w4 w5 w6 w7 w8 w9 w10" 100).warning =
      some (1/25, .longer) ∧
    EstimateDuration "w1 w2 w3 w4 w5 w6 w7 w8 w9 w10" 150 / (7/10) < 100 ∧
    (googleCalculateSpeed "w1 w2 w3 w4 w5 w6 w7 w8 w9 w10" (1/2)).speed = 4 ∧
    (googleCalculateSpeed "w1 w2 w3 w4 w5 w6 w7 w8 w9 w10" (1/2)).warning =
      some (8, .shorter) ∧
    EstimateDuration "w1 w2 w3 w4 w5 w6 w7 w8 w9 w10" 150 / 4 > 1/2 := by
  have hw : CountWords "w1 w2 w3 w4 w5 w6 w7 w8 w9 w10" = 10 := rfl
  have hnat : EstimateDuration "w1 w2 w3 w4 w5 w6 w7 w8 w9 w10" 150 = 4 := by
    simp only [EstimateDuration, hw]
    norm_num
  refine ⟨?_, ?_, ?_, ?_, ?_, ?_, ?_, ?_, ?_⟩ <;>
    simp only [elevenlabsCalculateSpeed, googleCalculateSpeed, calculateSpeedWith, hnat, hw] <;>
    norm_num [ClampFloat64]

/-- C6 counterexample: for the five-word text with target 60s the rate is
clamped up to 90 WPM, but no clamp warning is emitted — the source only logs
a warning when the adjusted rate exceeds the maximum. -/
theorem rate_low_clamp_no_warning_cex :
    (estimateSpeakingRate "one two three four five" 60).rate = 90 ∧
    (estimateSpeakingRate "one two three four five" 60).warning = none := by
  have hw : CountWords "one two three four five" = 5 := rfl
  have h : estimateSpeakingRate "one two three four five" 60 = ⟨90, none⟩ := by
    simp only [estimateSpeakingRate, CalculateWPM, hw]
    norm_num [ClampInt, goTruncToInt]
  rw [h]
  exact ⟨rfl, rfl⟩

/-- C6 amended: the five-word / 60s scenario computes the required rate of
exactly 5 WPM, applies the 0.95 adjustment (4.75), and returns the value
clamped up to 90 WPM — but emits no clamp warning, since the code warns only
when the adjusted rate exceeds the 360 WPM maximum. -/
theorem rate_low_clamp_amended :
    CalculateWPM (CountWords "one two three four five") 60 = 5 ∧
    CalculateWPM (CountWords "one two three four five") 60 * (95/100) = 19/4 ∧
    estimateSpeakingRate "one two three four five" 60 = ⟨90, none⟩ := by
  have hw : CountWords "one two three four five" = 5 := rfl
  refine ⟨?_, ?_, ?_⟩
  · simp only [CalculateWPM, hw]
    norm_num
  · simp only [CalculateWPM, hw]
    norm_num
  · simp only [estimateSpeakingRate, CalculateWPM, hw]
    norm_num [ClampInt, goTruncToInt]

/-! ## Claims about the resilient request executor -/

/-- C7: when every HTTP attempt yields status 503, the executor performs
exactly 3 attempts (sleeping 2 backoff waits), no attempt follows the third,
and the returned error carries the last attempt's status code and body. -/
theorem retry_exhausts_three_attempts (att : Nat → AttemptOutcome)
    (canceled : Nat → Bool) (bodies : Nat → String)
    (hatt : ∀ n, att n = .response 503 (bodies n))
    (hc : ∀ n, canceled n = false) :
    retryableHTTPRequest att canceled =
      ⟨.error (.apiStatus 503 (bodies 2)), 3, 2⟩ := by
  simp [retryableHTTPRequest, retryAux, runOperation, shouldRetry, hatt, hc]

/-- C7 witness: the exhaustion theorem at a constant-503 attempt oracle. -/
theorem retry_exhausts_three_attempts_witness :
    retryableHTTPRequest (fun _ => .response 503 "Service Unavailable") (fun _ => false) =
      ⟨.error (.apiStatus 503 "Service Unavailable"), 3, 2⟩ :=
  retry_exhausts_three_attempts _ _ (fun _ => "Service Unavailable")
    (fun _ => rfl) (fun _ => rfl)

/-- C8: a first attempt with a non-retryable non-2xx status (e.g. 401) ends
the executor after exactly one attempt with zero backoff waits, and the
error `Generate`/`ListVoices` build from the response preserves its status
code and body. -/
theorem nonretryable_single_attempt (att : Nat → AttemptOutcome)
    (canceled : Nat → Bool) (s : Nat) (b : String)
    (h0 : att 0 = .response s b) (hs : shouldRetry s = false) (h200 : s ≠ 200) :
    retryableHTTPRequest att canceled = ⟨.ok (s, b), 1, 0⟩ ∧
    generateHTTPResult att canceled = .error (.apiStatus s b) := by
  have h : retryableHTTPRequest att canceled = ⟨.ok (s, b), 1, 0⟩ := by
    simp [retryableHTTPRequest, retryAux, runOperation, h0, hs]
  refine ⟨h, ?_⟩
  simp [generateHTTPResult, h, h200]

/-- C8 witness: the single-attempt theorem at a constant-401 attempt
oracle. -/
theorem nonretryable_single_attempt_witness :
    retryableHTTPRequest (fun _ => .response 401 "Unauthorized") (fun _ => false) =
      ⟨.ok (401, "Unauthorized"), 1, 0⟩ ∧
    generateHTTPResult (fun _ => .response 401 "Unauthorized") (fun _ => false) =
      .error (.apiStatus 401 "Unauthorized") :=
  nonretryable_single_attempt _ _ 401 "Unauthorized" rfl rfl (by decide)

/-! ## Sorting lemmas for the `ORDER BY name` clause -/

theorem lexLe_total (as : List Char) : ∀ bs, lexLe as bs = true ∨ lexLe bs as = true := by
  induction as with
  | nil => intro bs; left; rfl
  | cons a as ih =>
    intro bs
    cases bs with
    | nil => right; rfl
    | cons b bs =>
      simp only [lexLe]
      rcases Nat.lt_trichotomy a.toNat b.toNat with h | h | h
      · left
        rw [if_pos h]
      · rw [if_neg (by omega), if_neg (by omega), if_neg (by omega), if_neg (by omega)]
        exact ih bs
      · right
        rw [if_pos h]

theorem lexLe_trans (as : List Char) : ∀ bs cs, lexLe as bs = true → lexLe bs cs = true →
    lexLe as cs = true := by
  induction as with
  | nil => intro bs cs _ _; rfl
  | cons a as ih =>
    intro bs cs h1 h2
    cases bs with
    | nil => simp [lexLe] at h1
    | cons b bs =>
      cases cs with
      | nil => simp [lexLe] at h2
      | cons c cs =>
        simp only [lexLe] at h1 h2 ⊢
        by_cases hab : a.toNat < b.toNat
        · by_cases hbc : b.toNat < c.toNat
          · rw [if_pos (by omega)]
          · by_cases hcb : c.toNat < b.toNat
            · rw [if_neg hbc, if_pos hcb] at h2
              exact absurd h2 (by simp)
            · rw [if_pos (by omega)]
        · by_cases hba : b.toNat < a.toNat
          · rw [if_neg hab, if_pos hba] at h1
            exact absurd h1 (by simp)
          · rw [if_neg hab, if_neg hba] at h1
            by_cases hbc : b.toNat < c.toNat
            · rw [if_pos (by omega)]
            · by_cases hcb : c.toNat < b.toNat
              · rw [if_neg hbc, if_pos hcb] at h2
                exact absurd h2 (by simp)
              · rw [if_neg hbc, if_neg hcb] at h2
                rw [if_neg (by omega), if_neg (by omega)]
                exact ih bs cs h1 h2

theorem rowNameLe_total (a b : Row) : rowNameLe a b = true ∨ rowNameLe b a = true :=
  lexLe_total a.name.data b.name.data

theorem rowNameLe_trans {a b c : Row} (h1 : rowNameLe a b = true)
    (h2 : rowNameLe b c = true) : rowNameLe a c = true :=
  lexLe_trans a.name.data b.name.data c.name.data h1 h2

theorem insertByName_perm (r : Row) (l : List Row) :
    (insertByName r l).Perm (r :: l) := by
  induction l with
  | nil => exact List.Perm.refl _
  | cons w ws ih =>
    by_cases h : rowNameLe r w = true
    · simp only [insertByName, h, if_true]
      exact List.Perm.refl _
    · simp only [insertByName, h, if_false]
      exact (ih.cons w).trans (List.Perm.swap r w ws)

theorem sortByName_perm (l : List Row) : (sortByName l).Perm l := by
  induction l with
  | nil => exact List.Perm.refl _
  | cons r rs ih =>
    exact ((insertByName_perm r (sortByName rs)).trans (ih.cons r))

theorem insertByName_pairwise (r : Row) (l : List Row)
    (hl : l.Pairwise (fun a b => rowNameLe a b = true)) :
    (insertByName r l).Pairwise (fun a b => rowNameLe a b = true) := by
  induction l with
  | nil => simp [insertByName]
  | cons w ws ih =>
    rcases List.pairwise_cons.mp hl with ⟨hw, hws⟩
    by_cases h : rowNameLe r w = true
    · simp only [insertByName, h, if_true]
      refine List.pairwise_cons.mpr ⟨?_, hl⟩
      intro x hx
      rcases List.mem_cons.mp hx with hxw | hxs
      · exact hxw ▸ h
      · exact rowNameLe_trans h (hw x hxs)
    · have h' : rowNameLe w r = true := (rowNameLe_total r w).resolve_left h
      simp only [insertByName, h, if_false]
      refine List.pairwise_cons.mpr ⟨?_, ih hws⟩
      intro x hx
      rcases List.mem_cons.mp ((insertByName_perm r ws).mem_iff.mp hx) with hxr | hxs
      · exact hxr ▸ h'
      · exact hw x hxs

theorem sortByName_pairwise (l : List Row) :
    (sortByName l).Pairwise (fun a b => rowNameLe a b = true) := by
  induction l with
  | nil => simp [sortByName]
  | cons r rs ih => exact insertByName_pairwise r (sortByName rs) ih

/-! ## Filter lemmas for the cache state -/

theorem filter_after_delete (p : String) (cutoff : ℤ) (s : CacheState) :
    (s.filter (fun r => !(r.provider == p))).filter (getRowPred p cutoff) = [] := by
  induction s with
  | nil => rfl
  | cons r rs ih =>
    by_cases h : r.provider == p
    · simp [List.filter_cons, h, ih]
    · simp [List.filter_cons, h, getRowPred, ih]

theorem filter_fresh_rows (p : String) (cutoff t : ℤ) (h : cutoff < t) (V : List Voice) :
    (V.map (toRow p t)).filter (getRowPred p cutoff) = V.map (toRow p t) := by
  induction V with
  | nil => rfl
  | cons v vs ih =>
    simp [List.filter_cons, getRowPred, toRow, h, ih]

/-! ## Claims about the voice cache -/

/-- C9: two successive `Set`s for the same provider followed by a `Get`
within the TTL return exactly the second voice set (as a permutation, order
modulo the `ORDER BY name` sort), never a union or partial mix: the second
`Set` deletes every row the first one inserted. -/
theorem cache_replacement (s : CacheState) (p : String) (V1 V2 : List Voice)
    (t1 t2 now ttl : ℤ)
    (h1 : (V1.map Voice.ID).Nodup) (h2 : (V2.map Voice.ID).Nodup)
    (hfresh : now - ttl < t2) :
    ∃ s1 s2, SetVoices s p V1 t1 = .ok s1 ∧ SetVoices s1 p V2 t2 = .ok s2 ∧
      (GetVoices s2 p now ttl).Perm V2 := by
  refine ⟨s.filter (fun r => !(r.provider == p)) ++ V1.map (toRow p t1),
    ((s.filter (fun r => !(r.provider == p)) ++ V1.map (toRow p t1)).filter
        (fun r => !(r.provider == p))) ++ V2.map (toRow p t2), ?_, ?_, ?_⟩
  · unfold SetVoices
    rw [if_pos h1]
  · unfold SetVoices
    rw [if_pos h2]
  · simp only [GetVoices]
    rw [List.filter_append, filter_after_delete, filter_fresh_rows p _ t2 hfresh V2,
      List.nil_append]
    have hperm := (sortByName_perm (V2.map (toRow p t2))).map rowToVoice
    have hid : (V2.map (toRow p t2)).map rowToVoice = V2 := by
      rw [List.map_map]
      exact List.map_id V2
    exact hperm.trans (by rw [hid])

/-- C9 witness: the replacement theorem at a concrete pair of voice sets. -/
theorem cache_replacement_witness :
    ∃ s1 s2,
      SetVoices [] "say" [⟨"1", "alpha", "", "", ""⟩] 50 = .ok s1 ∧
      SetVoices s1 "say" [⟨"2", "beta", "", "", ""⟩, ⟨"3", "gamma", "", "", ""⟩] 100 = .ok s2 ∧
      (GetVoices s2 "say" 150 3600).Perm [⟨"2", "beta", "", "", ""⟩, ⟨"3", "gamma", "", "", ""⟩] :=
  cache_replacement [] "say" [⟨"1", "alpha", "", "", ""⟩]
    [⟨"2", "beta", "", "", ""⟩, ⟨"3", "gamma", "", "", ""⟩] 50 100 150 3600
    (by decide) (by decide) (by decide)

/-- C10: `Get` always returns its voices sorted ascending by `Name` (the SQL
`ORDER BY name`); consequently a cache-hit `ListVoices` can present the same
voices in a different order than the wrapped provider enumerated them: a
provider returning `[beta, alpha]`, cached via `Set`, is read back on a
cache hit as `[alpha, beta]` — a permutation, but not the provider's
order. -/
theorem get_sorted_by_name :
    (∀ (s : CacheState) (p : String) (now ttl : ℤ),
        (GetVoices s p now ttl).Pairwise (fun a b => strLe a.Name b.Name = true)) ∧
    SetVoices [] "say" [⟨"2", "beta", "", "", ""⟩, ⟨"1", "alpha", "", "", ""⟩] 100 =
      .ok [⟨"say", "2", "beta", "", "", "", 100⟩, ⟨"say", "1", "alpha", "", "", "", 100⟩] ∧
    GetVoices [⟨"say", "2", "beta", "", "", "", 100⟩, ⟨"say", "1", "alpha", "", "", "", 100⟩]
        "say" 150 3600 = [⟨"1", "alpha", "", "", ""⟩, ⟨"2", "beta", "", "", ""⟩] ∧
    cachedListVoices (.ok [⟨"1", "alpha", "", "", ""⟩, ⟨"2", "beta", "", "", ""⟩])
        (.ok [⟨"2", "beta", "", "", ""⟩, ⟨"1", "alpha", "", "", ""⟩]) (.ok ()) =
      .ok [⟨"1", "alpha", "", "", ""⟩, ⟨"2", "beta", "", "", ""⟩] ∧
    ([⟨"1", "alpha", "", "", ""⟩, ⟨"2", "beta", "", "", ""⟩] : List Voice) ≠
      [⟨"2", "beta", "", "", ""⟩, ⟨"1", "alpha", "", "", ""⟩] ∧
    ([⟨"1", "alpha", "", "", ""⟩, ⟨"2", "beta", "", "", ""⟩] : List Voice).Perm
      [⟨"2", "beta", "", "", ""⟩, ⟨"1", "alpha", "", "", ""⟩] := by
  refine ⟨?_, rfl, rfl, rfl, by decide, List.Perm.swap _ _ _⟩
  intro s p now ttl
  unfold GetVoices
  rw [List.pairwise_map]
  exact sortByName_pairwise _

/-! ## Claims about the cached provider decorator -/

/-- C1 counterexample: a failing cache `Get` makes a plain `ListVoices` call
fail with the wrapped cache error even though the underlying provider has
voices to offer — the provider is not consulted. -/
theorem cache_read_error_blocks_cex :
    cachedListVoices (.error "disk I/O error") (.ok [⟨"1", "Alice", "", "en_US", ""⟩]) (.ok ()) =
      .error "cache error: disk I/O error" ∧
    cachedListVoices (.error "disk I/O error") (.ok [⟨"1", "Alice", "", "en_US", ""⟩]) (.ok ()) ≠
      .ok [⟨"1", "Alice", "", "en_US", ""⟩] :=
  ⟨rfl, fun h => Except.noConfusion h⟩

/-- C1 amended: a cache read failure is propagated by plain `ListVoices`
itself (wrapped as `cache error: …`, whatever the provider would have
returned); only cache *write* failures are non-blocking — a failed `Set`
after a successful fetch still returns the voices — and `ListVoicesRefresh`
additionally propagates `Set` failures. -/
theorem cache_read_error_propagated_amended :
    (∀ (e : String) (pv : Except String (List Voice)) (cs : Except String Unit),
        cachedListVoices (.error e) pv cs = .error ("cache error: " ++ e)) ∧
    (∀ (vs : List Voice) (e : String),
        cachedListVoices (.ok []) (.ok vs) (.error e) = .ok vs) ∧
    (∀ (vs : List Voice) (e : String),
        cachedListVoicesRefresh (.ok ()) (.ok vs) (.error e) =
          .error ("failed to cache voices: " ++ e)) :=
  ⟨fun _ _ _ => rfl, fun _ _ => rfl, fun _ _ => rfl⟩

/-! ## Claims about the empty-text guard in `Generate` -/

/-- C4 counterexample: with an empty `Text`, the ElevenLabs and Google
`Generate` implementations do not fail — no empty-text check exists, the
request is sent to the remote API, and a successful response writes the
audio file. -/
theorem remote_generate_empty_text_cex :
    (elevenlabsGenerate (fun _ => .response 200 "audio-bytes") (fun _ => false)
        ⟨"", "Rachel", "out/section.mp3", none, none, "mp3", none⟩).result =
      .ok "out/section.mp3" ∧
    (elevenlabsGenerate (fun _ => .response 200 "audio-bytes") (fun _ => false)
        ⟨"", "Rachel", "out/section.mp3", none, none, "mp3", none⟩).fileWritten = true ∧
    (googleGenerate (.ok "audio-bytes")
        ⟨"", "en-US-Neural2-F", "out/section.mp3", none, none, "mp3", none⟩).result =
      .ok "out/section.mp3" ∧
    (googleGenerate (.ok "audio-bytes")
        ⟨"", "en-US-Neural2-F", "out/section.mp3", none, none, "mp3", none⟩).fileWritten =
      true :=
  ⟨rfl, rfl, rfl, rfl⟩

/-- C4 amended: only the local providers enforce the empty-text contract —
`say` and `espeak` fail with `no text to generate audio from` and never run
the synthesis command when the normalized text is empty, while the
ElevenLabs and Google `Generate` send the synthesis request to the remote
API regardless of the text. -/
theorem empty_text_guard_amended :
    (∀ (cmdOk : Bool) (req : GenerateRequest),
        (TrimSpace (CleanMarkdown req.Text)).data = [] →
        sayGenerate cmdOk req = ⟨.error "no text to generate audio from", false⟩ ∧
        espeakGenerate cmdOk req = ⟨.error "no text to generate audio from", false⟩) ∧
    (∀ (att : Nat → AttemptOutcome) (canceled : Nat → Bool) (req : GenerateRequest),
        (elevenlabsGenerate att canceled req).requestSent = true) ∧
    (∀ (api : Except String String) (req : GenerateRequest),
        (googleGenerate api req).requestSent = true) := by
  refine ⟨?_, ?_, ?_⟩
  · intro cmdOk req h
    constructor <;> simp [sayGenerate, espeakGenerate, h]
  · intro att canceled req
    cases h : generateHTTPResult att canceled <;> simp [elevenlabsGenerate, h]
  · intro api req
    cases api <;> simp [googleGenerate]

/-- C4 amended witness: the guard facts at concrete requests with empty
text. -/
theorem empty_text_guard_amended_witness :
    (sayGenerate true ⟨"", "Samantha", "out/s.aiff", some 180, none, "aiff", none⟩ =
        ⟨.error "no text to generate audio from", false⟩ ∧
      espeakGenerate true ⟨"", "Samantha", "out/s.aiff", some 180, none, "aiff", none⟩ =
        ⟨.error "no text to generate audio from", false⟩) ∧
    (elevenlabsGenerate (fun _ => .response 200 "audio-bytes") (fun _ => false)
        ⟨"", "Rachel", "out/s.mp3", none, none, "mp3", none⟩).requestSent = true ∧
    (googleGenerate (.ok "audio-bytes")
        ⟨"", "en-US-Neural2-F", "out/s.mp3", none, none, "mp3", none⟩).requestSent = true :=
  ⟨empty_text_guard_amended.1 true ⟨"", "Samantha", "out/s.aiff", some 180, none, "aiff", none⟩ rfl,
   empty_text_guard_amended.2.1 (fun _ => .response 200 "audio-bytes") (fun _ => false)
     ⟨"", "Rachel", "out/s.mp3", none, none, "mp3", none⟩,
   empty_text_guard_amended.2.2 (.ok "audio-bytes")
     ⟨"", "en-US-Neural2-F", "out/s.mp3", none, none, "mp3", none⟩⟩

end Md2Audio
